import Mathlib

/-!
# Verification of the kryptos crypto-utils core

A shallow embedding of `src/crypto-utils.ts` (and of the dispatch in
`src/App.tsx`) together with proofs about the claims of the spec.

Modelling conventions:

* A JavaScript string is a list of UTF-16 code units, `List Nat`, each
  unit `< 2 ^ 16` when produced by the runtime.
* `String.fromCharCode` applies ToUint16, i.e. reduction modulo `2 ^ 16`.
* The JavaScript `%` on numbers is the truncated remainder, `Int.tmod`.
* Browser built-ins (`btoa`, `atob`) and external library primitives
  (CryptoJS, WebCrypto, TextEncoder) are either modelled byte-for-byte
  (base64, UTF-8 encoding) or abstracted as explicit function parameters
  where only their interface matters.
* Fallible operations return `Except String`, the error text mirroring
  the thrown message.
-/

namespace Kryptos

/-- ToUint16 conversion performed by `String.fromCharCode`. -/
def fromCharCode (x : Int) : Nat := (x % 65536).toNat

/-- Code units of the standard base64 alphabet
`ABCDEFGHIJKLMNOPQRSTUVWXYZabcdefghijklmnopqrstuvwxyz0123456789+/`. -/
def b64Alphabet : List Nat :=
  (List.range 26).map (65 + ·) ++ (List.range 26).map (97 + ·) ++
    (List.range 10).map (48 + ·) ++ [43, 47]

/-- The base64 character for a sextet value `s < 64`. -/
def sextetChar (s : Nat) : Nat := b64Alphabet.getD s 0

/-- The sextet value of a base64 character, `none` when the character is
not in the alphabet (in particular for the pad character `=`, code 61). -/
def charSextet (c : Nat) : Option Nat := b64Alphabet.findIdx? (fun x => x = c)

/-- Base64 encoding of a byte list, three bytes to four characters, with
`=` (code 61) padding, as performed by the browser `btoa` built-in. -/
def btoaBytes : List Nat → List Nat
  | [] => []
  | [b1] => [sextetChar (b1 / 4), sextetChar (b1 % 4 * 16), 61, 61]
  | [b1, b2] =>
      [sextetChar (b1 / 4), sextetChar (b1 % 4 * 16 + b2 / 16),
       sextetChar (b2 % 16 * 4), 61]
  | b1 :: b2 :: b3 :: rest =>
      sextetChar (b1 / 4) :: sextetChar (b1 % 4 * 16 + b2 / 16) ::
        sextetChar (b2 % 16 * 4 + b3 / 64) :: sextetChar (b3 % 64) ::
        btoaBytes rest

/-- Base64 decoding of a character list, as performed by the browser
`atob` built-in (forgiving decode: a final group of two or three
characters without padding is accepted; a lone trailing character or a
character outside the alphabet is rejected). -/
def atobChars : List Nat → Option (List Nat)
  | [] => some []
  | c1 :: c2 :: c3 :: c4 :: rest =>
      match charSextet c1, charSextet c2 with
      | some s1, some s2 =>
          if c3 = 61 then
            if c4 = 61 ∧ rest = [] then some [s1 * 4 + s2 / 16] else none
          else
            match charSextet c3 with
            | some s3 =>
                if c4 = 61 then
                  if rest = [] then
                    some [s1 * 4 + s2 / 16, s2 % 16 * 16 + s3 / 4]
                  else none
                else
                  match charSextet c4, atobChars rest with
                  | some s4, some tail =>
                      some ((s1 * 4 + s2 / 16) :: (s2 % 16 * 16 + s3 / 4) ::
                        (s3 % 4 * 64 + s4) :: tail)
                  | _, _ => none
            | none => none
      | _, _ => none
  | [c1, c2] =>
      match charSextet c1, charSextet c2 with
      | some s1, some s2 => some [s1 * 4 + s2 / 16]
      | _, _ => none
  | [c1, c2, c3] =>
      match charSextet c1, charSextet c2, charSextet c3 with
      | some s1, some s2, some s3 =>
          some [s1 * 4 + s2 / 16, s2 % 16 * 16 + s3 / 4]
      | _, _, _ => none
  | _ => none

/-- The browser `btoa` built-in: throws `InvalidCharacterError` when some
code unit of the input exceeds 255, otherwise base64-encodes the bytes. -/
def btoa (s : List Nat) : Except String (List Nat) :=
  if s.all (fun c => c < 256) then Except.ok (btoaBytes s)
  else Except.error "InvalidCharacterError"

/-- The browser `atob` built-in: base64-decodes, throws on malformed
input. -/
def atob (s : List Nat) : Except String (List Nat) :=
  match atobChars s with
  | some bs => Except.ok bs
  | none => Except.error "InvalidCharacterError"

/-! ## XOR cipher adapter (`encryptXOR` / `decryptXOR`) -/

/-- The loop of the XOR adapter: position `i` of the text is XORed with
key code unit `i % key.length`; `i` starts at the given index.  XOR of
two values below `2 ^ 16` stays below `2 ^ 16`, so the ToUint16 of
`String.fromCharCode` is the identity here and is omitted. -/
def xorLoop (key : List Nat) : Nat → List Nat → List Nat
  | _, [] => []
  | i, c :: rest => (c ^^^ key.getD (i % key.length) 0) :: xorLoop key (i + 1) rest

/-- `xorWithKey text key` is the code-unit list built by the XOR loop of
`encryptXOR` / `decryptXOR`, starting at position 0. -/
def xorWithKey (text key : List Nat) : List Nat := xorLoop key 0 text

/-- `encryptXOR` from `crypto-utils.ts`: rejects an empty key, XORs the
text with the cyclically repeated key, then base64-encodes via `btoa`
(which throws when an XORed unit exceeds 255). -/
def encryptXOR (text key : List Nat) : Except String (List Nat) :=
  if key.isEmpty then Except.error "Key cannot be empty"
  else btoa (xorWithKey text key)

/-- `decryptXOR` from `crypto-utils.ts`: rejects an empty key, base64-
decodes via `atob` (failures are caught and rethrown as a decryption
failure), then XORs with the cyclically repeated key. -/
def decryptXOR (ciphertext key : List Nat) : Except String (List Nat) :=
  if key.isEmpty then Except.error "Key cannot be empty"
  else
    match atob ciphertext with
    | Except.ok decoded => Except.ok (xorWithKey decoded key)
    | Except.error _ => Except.error "XOR decryption failed: Invalid data or key"

/-! ## Base64 round-trip lemmas -/

theorem charSextet_sextetChar : ∀ s : Nat, s < 64 → charSextet (sextetChar s) = some s := by
  decide

theorem sextetChar_ne_pad : ∀ s : Nat, s < 64 → sextetChar s ≠ 61 := by
  decide

theorem atobChars_btoaBytes (bs : List Nat) (h : ∀ b ∈ bs, b < 256) :
    atobChars (btoaBytes bs) = some bs := by
  induction bs using btoaBytes.induct with
  | case1 => simp [btoaBytes, atobChars]
  | case2 b1 =>
      have hb1 : b1 < 256 := h b1 (by simp)
      have h1 : b1 / 4 < 64 := by omega
      have h2 : b1 % 4 * 16 < 64 := by omega
      simp [btoaBytes, atobChars, charSextet_sextetChar _ h1,
        charSextet_sextetChar _ h2]
      omega
  | case3 b1 b2 =>
      have hb1 : b1 < 256 := h b1 (by simp)
      have hb2 : b2 < 256 := h b2 (by simp)
      have h1 : b1 / 4 < 64 := by omega
      have h2 : b1 % 4 * 16 + b2 / 16 < 64 := by omega
      have h3 : b2 % 16 * 4 < 64 := by omega
      simp [btoaBytes, atobChars, charSextet_sextetChar _ h1,
        charSextet_sextetChar _ h2, charSextet_sextetChar _ h3,
        sextetChar_ne_pad _ h3]
      omega
  | case4 b1 b2 b3 rest ih =>
      have hb1 : b1 < 256 := h b1 (by simp)
      have hb2 : b2 < 256 := h b2 (by simp)
      have hb3 : b3 < 256 := h b3 (by simp)
      have hrest : ∀ b ∈ rest, b < 256 := fun b hb => h b (by simp [hb])
      have h1 : b1 / 4 < 64 := by omega
      have h2 : b1 % 4 * 16 + b2 / 16 < 64 := by omega
      have h3 : b2 % 16 * 4 + b3 / 64 < 64 := by omega
      have h4 : b3 % 64 < 64 := by omega
      simp [btoaBytes, atobChars, charSextet_sextetChar _ h1,
        charSextet_sextetChar _ h2, charSextet_sextetChar _ h3,
        charSextet_sextetChar _ h4, sextetChar_ne_pad _ h3,
        sextetChar_ne_pad _ h4, ih hrest]
      omega

theorem atob_btoa (bs : List Nat) (h : ∀ b ∈ bs, b < 256) :
    atob (btoaBytes bs) = Except.ok bs := by
  unfold atob
  rw [atobChars_btoaBytes bs h]

/-! ## XOR self-inverse lemmas -/

theorem xorLoop_xorLoop (key : List Nat) (text : List Nat) :
    ∀ i, xorLoop key i (xorLoop key i text) = text := by
  induction text with
  | nil => intro i; rfl
  | cons c rest ih =>
      intro i
      simp only [xorLoop, ih (i + 1), List.cons.injEq, and_true]
      rw [Nat.xor_assoc, Nat.xor_self, Nat.xor_zero]

theorem xorWithKey_xorWithKey (text key : List Nat) :
    xorWithKey (xorWithKey text key) key = text :=
  xorLoop_xorLoop key text 0

theorem isEmpty_false_of_ne_nil {K : List Nat} (h : K ≠ []) : K.isEmpty = false := by
  cases K with
  | nil => exact absurd rfl h
  | cons a l => rfl

/-- C1 counterexample: the claimed round trip fails as stated.  With
plaintext `[256]` (the single character U+0100) and the non-empty key
`[66]`, `encryptXOR` throws from the `btoa` step, so the composition
never returns the plaintext. -/
theorem xor_roundtrip_counterexample :
    ¬ ∃ c, encryptXOR [256] [66] = Except.ok c ∧
      decryptXOR c [66] = Except.ok [256] := by
  have h : encryptXOR [256] [66] = Except.error "InvalidCharacterError" := rfl
  rintro ⟨c, hc, -⟩
  rw [h] at hc
  exact Except.noConfusion hc

/-- C1 (amended): for every plaintext and every non-empty key such that
each XORed code unit fits in a byte (so that `btoa` accepts it),
`encryptXOR` succeeds and `decryptXOR` with the same key returns the
plaintext exactly, code unit for code unit. -/
theorem xor_roundtrip (text key : List Nat) (hk : key ≠ [])
    (h : ∀ b ∈ xorWithKey text key, b < 256) :
    encryptXOR text key = Except.ok (btoaBytes (xorWithKey text key)) ∧
    decryptXOR (btoaBytes (xorWithKey text key)) key = Except.ok text := by
  have hk2 : key.isEmpty = false := isEmpty_false_of_ne_nil hk
  constructor
  · simp only [encryptXOR, hk2, Bool.false_eq_true, if_false, btoa]
    rw [if_pos]
    simp only [List.all_eq_true, decide_eq_true_eq]
    exact h
  · simp only [decryptXOR, hk2, Bool.false_eq_true, if_false,
      atob_btoa _ h, xorWithKey_xorWithKey]

/-- C1 witness at the concrete scenario of the spec:
`encryptXOR("HELLO", "KEY")` round-trips back to `"HELLO"`. -/
theorem xor_roundtrip_witness :
    (([75, 69, 89] : List Nat) ≠ [] ∧
      ∀ b ∈ xorWithKey [72, 69, 76, 76, 79] [75, 69, 89], b < 256) ∧
    encryptXOR [72, 69, 76, 76, 79] [75, 69, 89] =
      Except.ok (btoaBytes (xorWithKey [72, 69, 76, 76, 79] [75, 69, 89])) ∧
    decryptXOR (btoaBytes (xorWithKey [72, 69, 76, 76, 79] [75, 69, 89]))
      [75, 69, 89] = Except.ok [72, 69, 76, 76, 79] :=
  ⟨⟨by decide, by decide⟩,
    xor_roundtrip [72, 69, 76, 76, 79] [75, 69, 89] (by decide) (by decide)⟩

/-- C5: `encryptXOR` and `decryptXOR` reject the empty key for every
input with the `Key cannot be empty` error, while with any non-empty key
the empty text encrypts to the empty token and round-trips back. -/
theorem xor_empty_key_empty_text (P C K : List Nat) (hK : K ≠ []) :
    encryptXOR P [] = Except.error "Key cannot be empty" ∧
    decryptXOR C [] = Except.error "Key cannot be empty" ∧
    encryptXOR [] K = Except.ok [] ∧
    decryptXOR [] K = Except.ok [] := by
  have hK2 : K.isEmpty = false := isEmpty_false_of_ne_nil hK
  refine ⟨rfl, rfl, ?_, ?_⟩
  · simp only [encryptXOR, hK2, Bool.false_eq_true, if_false]
    rfl
  · simp only [decryptXOR, hK2, Bool.false_eq_true, if_false]
    rfl

/-- C5 witness at concrete inputs. -/
theorem xor_empty_key_empty_text_witness :
    (([3] : List Nat) ≠ []) ∧
    encryptXOR [1] [] = Except.error "Key cannot be empty" ∧
    decryptXOR [2] [] = Except.error "Key cannot be empty" ∧
    encryptXOR [] [3] = Except.ok [] ∧
    decryptXOR [] [3] = Except.ok [] :=
  ⟨by decide, xor_empty_key_empty_text [1] [2] [3] (by decide)⟩

/-- C10: `encryptXOR` is not total over Unicode plaintexts: whenever some
XORed code unit exceeds 255 (e.g. a plaintext character above U+00FF
XORed against a small key unit), the `btoa` step throws an
`InvalidCharacterError` instead of producing a ciphertext token. -/
theorem xor_encrypt_wide_unit_error (P K : List Nat) (hK : K ≠ [])
    (h : ¬ ∀ b ∈ xorWithKey P K, b < 256) :
    encryptXOR P K = Except.error "InvalidCharacterError" := by
  have hK2 : K.isEmpty = false := isEmpty_false_of_ne_nil hK
  simp only [encryptXOR, hK2, Bool.false_eq_true, if_false, btoa]
  rw [if_neg]
  simp only [List.all_eq_true, decide_eq_true_eq]
  exact h

/-- C10 witness: the plaintext `[256]` (U+0100) with key `[65]` XORs to
`[321]`, which `btoa` rejects. -/
theorem xor_encrypt_wide_unit_error_witness :
    (([65] : List Nat) ≠ [] ∧ ¬ ∀ b ∈ xorWithKey [256] [65], b < 256) ∧
    encryptXOR [256] [65] = Except.error "InvalidCharacterError" :=
  ⟨⟨by decide, by decide⟩, xor_encrypt_wide_unit_error [256] [65] (by decide) (by decide)⟩

/-! ## Caesar cipher adapter (`encryptCaesar` / `decryptCaesar`) -/

/-- One character of `encryptCaesar` from `crypto-utils.ts`: the regex
`[a-zA-Z]` selects alphabetic code units; an upper-case unit uses base
65, a lower-case one base 97; the rotated unit is
`fromCharCode(((code - base + shift) % 26) + base)` where `%` is the
JavaScript truncated remainder `Int.tmod`. -/
def caesarChar (shift : Int) (code : Nat) : Nat :=
  if (65 ≤ code ∧ code ≤ 90) ∨ (97 ≤ code ∧ code ≤ 122) then
    if 65 ≤ code ∧ code ≤ 90 then
      fromCharCode (Int.tmod ((code : Int) - 65 + shift) 26 + 65)
    else
      fromCharCode (Int.tmod ((code : Int) - 97 + shift) 26 + 97)
  else code

/-- `encryptCaesar` from `crypto-utils.ts`. -/
def encryptCaesar (text : List Nat) (shift : Int) : List Nat :=
  text.map (caesarChar shift)

/-- `decryptCaesar` from `crypto-utils.ts`: encryption with the
complementary shift `26 - shift`. -/
def decryptCaesar (ciphertext : List Nat) (shift : Int) : List Nat :=
  encryptCaesar ciphertext (26 - shift)

/-- The Caesar rotation exactly as the spec words it:
`(code - base + shift) mod 26 + base` with the mathematical
(always non-negative) modulus, here `Int.emod`. -/
def caesarCharSpec (shift : Int) (code : Nat) : Nat :=
  if (65 ≤ code ∧ code ≤ 90) ∨ (97 ≤ code ∧ code ≤ 122) then
    if 65 ≤ code ∧ code ≤ 90 then
      (((code : Int) - 65 + shift) % 26 + 65).toNat
    else
      (((code : Int) - 97 + shift) % 26 + 97).toNat
  else code

/-- The whole-text version of `caesarCharSpec`. -/
def encryptCaesarSpec (text : List Nat) (shift : Int) : List Nat :=
  text.map (caesarCharSpec shift)

theorem caesarChar_26 (c : Nat) : caesarChar 26 c = c := by
  unfold caesarChar fromCharCode
  split
  · split
    · rw [Int.tmod_eq_emod (by omega) (by omega)]
      omega
    · rw [Int.tmod_eq_emod (by omega) (by omega)]
      omega
  · rfl

theorem map_caesarChar_26 (L : List Nat) : L.map (caesarChar 26) = L := by
  induction L with
  | nil => rfl
  | cons c rest ih => simp [caesarChar_26 c, ih]

/-- C3: decryption is encryption with the complementary shift `26 - shift`
for every shift in `[0, 25]`, and at `shift = 0` decryption is a no-op
(rotation by `26 ≡ 0`). -/
theorem caesar_decrypt_is_complementary_encrypt (C : List Nat) (shift : Int)
    (h0 : 0 ≤ shift) (h1 : shift ≤ 25) :
    decryptCaesar C shift = encryptCaesar C (26 - shift) ∧
    decryptCaesar C 0 = C := by
  refine ⟨rfl, ?_⟩
  show encryptCaesar C (26 - 0) = C
  rw [show (26 : Int) - 0 = 26 by norm_num]
  exact map_caesarChar_26 C

/-- C3 witness at the concrete scenario of the spec:
`decryptCaesar("cde", 2)` returns `"abc"`. -/
theorem caesar_decrypt_is_complementary_encrypt_witness :
    ((0 : Int) ≤ 2 ∧ (2 : Int) ≤ 25) ∧
    (decryptCaesar [99, 100, 101] 2 = encryptCaesar [99, 100, 101] (26 - 2) ∧
      decryptCaesar [99, 100, 101] 0 = [99, 100, 101]) ∧
    decryptCaesar [99, 100, 101] 2 = [97, 98, 99] :=
  ⟨⟨by norm_num, by norm_num⟩,
    caesar_decrypt_is_complementary_encrypt [99, 100, 101] 2 (by norm_num) (by norm_num),
    by decide⟩

/-- C4 counterexample: at the negative shift `-1` on `"a"` (code 97), the
code produces code 96 (the backquote character, outside the alphabet),
while the rotation the claim states (mathematical mod 26) gives 122
(`"z"`): the JavaScript truncated `%` breaks the claimed rotation for
negative shifts. -/
theorem caesar_negative_shift_counterexample :
    encryptCaesar [97] (-1) = [96] ∧ encryptCaesarSpec [97] (-1) = [122] ∧
    encryptCaesar [97] (-1) ≠ encryptCaesarSpec [97] (-1) := by
  decide

/-- C4 (amended): for every text and every non-negative shift (including
shifts greater than 25), `encryptCaesar` rotates each alphabetic unit by
`shift` within its case alphabet via `(code - base + shift) mod 26 + base`
and leaves every other unit unchanged; for negative shifts the truncated
remainder departs from that rotation. -/
theorem caesar_rotation_correct_of_nonneg (text : List Nat) (shift : Int)
    (h : 0 ≤ shift) :
    encryptCaesar text shift = encryptCaesarSpec text shift := by
  have hc : ∀ c, caesarChar shift c = caesarCharSpec shift c := by
    intro c
    unfold caesarChar caesarCharSpec fromCharCode
    split
    · split
      · rw [Int.tmod_eq_emod (by omega) (by omega)]
        omega
      · rw [Int.tmod_eq_emod (by omega) (by omega)]
        omega
    · rfl
  unfold encryptCaesar encryptCaesarSpec
  induction text with
  | nil => rfl
  | cons c rest ih => simp [hc c, ih]

/-- C4 witness: a shift of 27 (greater than 25) on `"az"` matches the
spec rotation. -/
theorem caesar_rotation_correct_of_nonneg_witness :
    ((0 : Int) ≤ 27) ∧
    encryptCaesar [97, 122] 27 = encryptCaesarSpec [97, 122] 27 ∧
    encryptCaesar [97, 122] 27 = [98, 97] :=
  ⟨by norm_num, caesar_rotation_correct_of_nonneg [97, 122] 27 (by norm_num),
    by decide⟩

/-! ## Caesar shift generator -/

/-- `generateCaesarShift` from `crypto-utils.ts`: from one secure random
byte `b` (the single entry of the `Uint8Array`), return `b % 25 + 1`. -/
def generateCaesarShift (b : Nat) : Nat := b % 25 + 1

/-- C8: for every value of the random byte, the generated shift lies in
`[1, 25]`. -/
theorem caesar_shift_in_range (b : Nat) (h : b < 256) :
    1 ≤ generateCaesarShift b ∧ generateCaesarShift b ≤ 25 := by
  unfold generateCaesarShift
  omega

/-- C8 witness at the extreme byte value 255. -/
theorem caesar_shift_in_range_witness :
    255 < 256 ∧ (1 ≤ generateCaesarShift 255 ∧ generateCaesarShift 255 ≤ 25) :=
  ⟨by decide, caesar_shift_in_range 255 (by decide)⟩

/-! ## AES adapter (`encryptAES` / `decryptAES`)

The CryptoJS primitives are external; they enter as explicit function
parameters: `aesEnc` for `CryptoJS.AES.encrypt(text, key).toString()`
(total) and `aesDec` for `CryptoJS.AES.decrypt(ciphertext, key)` followed
by `utf8` for `bytes.toString(CryptoJS.enc.Utf8)`, each of which may
throw (`Except.error`). -/

/-- `encryptAES` from `crypto-utils.ts`: the primitive call, wrapped in a
try/catch that only renames a thrown error. -/
def encryptAES (aesEnc : List Nat → List Nat → List Nat)
    (text key : List Nat) : List Nat :=
  aesEnc text key

/-- `decryptAES` from `crypto-utils.ts`: run the primitive, decode the
recovered bytes as UTF-8, and throw `Invalid key or corrupted data` when
the decoded string is empty; every thrown error is caught and rethrown
with the `AES decryption failed:` prefix. -/
def decryptAES (aesDec : List Nat → List Nat → Except String (List Nat))
    (utf8 : List Nat → Except String (List Nat))
    (ciphertext key : List Nat) : Except String (List Nat) :=
  match aesDec ciphertext key with
  | Except.error e => Except.error ("AES decryption failed: " ++ e)
  | Except.ok bytes =>
      match utf8 bytes with
      | Except.error e => Except.error ("AES decryption failed: " ++ e)
      | Except.ok decrypted =>
          if decrypted.isEmpty then
            Except.error "AES decryption failed: Invalid key or corrupted data"
          else Except.ok decrypted

/-- C6: whenever the primitive recovers bytes that are empty or do not
decode as valid UTF-8 text (wrong passphrase, corrupt token), `decryptAES`
surfaces an error instead of returning a result; in particular it never
returns the empty string. -/
theorem aes_decrypt_rejects_empty_or_garbage
    (aesDec : List Nat → List Nat → Except String (List Nat))
    (utf8 : List Nat → Except String (List Nat))
    (ciphertext key bytes : List Nat)
    (hdec : aesDec ciphertext key = Except.ok bytes)
    (hbad : (∃ m, utf8 bytes = Except.error m) ∨ utf8 bytes = Except.ok []) :
    (∃ m, decryptAES aesDec utf8 ciphertext key = Except.error m) ∧
    ∀ s, decryptAES aesDec utf8 ciphertext key ≠ Except.ok s := by
  have hres : ∃ m, decryptAES aesDec utf8 ciphertext key = Except.error m := by
    rcases hbad with ⟨m, hm⟩ | hempty
    · exact ⟨"AES decryption failed: " ++ m, by simp [decryptAES, hdec, hm]⟩
    · exact ⟨"AES decryption failed: Invalid key or corrupted data",
        by simp [decryptAES, hdec, hempty]⟩
  refine ⟨hres, ?_⟩
  rcases hres with ⟨m, hm⟩
  intro s hs
  rw [hm] at hs
  exact Except.noConfusion hs

/-- C6 witness: a primitive that recovers bytes decoding to the empty
string makes `decryptAES` fail. -/
theorem aes_decrypt_rejects_empty_or_garbage_witness :
    ((fun (_ _ : List Nat) => Except.ok (ε := String) [7]) [] [] = Except.ok [7] ∧
      ((∃ m, (fun (_ : List Nat) => Except.ok (ε := String) ([] : List Nat)) [7] =
          Except.error m) ∨
        (fun (_ : List Nat) => Except.ok (ε := String) ([] : List Nat)) [7] =
          Except.ok [])) ∧
    (∃ m, decryptAES (fun _ _ => Except.ok [7]) (fun _ => Except.ok []) [] [] =
      Except.error m) ∧
    ∀ s, decryptAES (fun _ _ => Except.ok [7]) (fun _ => Except.ok []) [] [] ≠
      Except.ok s :=
  ⟨⟨rfl, Or.inr rfl⟩,
    aes_decrypt_rejects_empty_or_garbage (fun _ _ => Except.ok [7])
      (fun _ => Except.ok []) [] [] [7] rfl (Or.inr rfl)⟩

/-! ## RSA adapter (`encryptRSA` / `decryptRSA` / `generateRSAKeyPair`)

The WebCrypto primitives are external.  Key import and the raw OAEP
operation enter as parameters; the OAEP payload bound, which is what C9
is about, is modelled explicitly from the spec. -/

/-- UTF-8 bytes of a single code point. -/
def utf8Bytes (cp : Nat) : List Nat :=
  if cp < 128 then [cp]
  else if cp < 2048 then [192 + cp / 64, 128 + cp % 64]
  else if cp < 65536 then
    [224 + cp / 4096, 128 + cp / 64 % 64, 128 + cp % 64]
  else
    [240 + cp / 262144, 128 + cp / 4096 % 64, 128 + cp / 64 % 64, 128 + cp % 64]

/-- `TextEncoder.encode`: UTF-8 encoding of a UTF-16 code-unit list,
pairing surrogates and replacing unpaired surrogates with U+FFFD. -/
def textEncode : List Nat → List Nat
  | [] => []
  | [u] => if 55296 ≤ u ∧ u ≤ 57343 then utf8Bytes 65533 else utf8Bytes u
  | u :: v :: rest2 =>
      if 55296 ≤ u ∧ u ≤ 56319 then
        if 56320 ≤ v ∧ v ≤ 57343 then
          utf8Bytes (65536 + (u - 55296) * 1024 + (v - 56320)) ++ textEncode rest2
        else utf8Bytes 65533 ++ textEncode (v :: rest2)
      else if 56320 ≤ u ∧ u ≤ 57343 then utf8Bytes 65533 ++ textEncode (v :: rest2)
      else utf8Bytes u ++ textEncode (v :: rest2)

/-- Modelled from the spec: the WebCrypto RSA-OAEP encryption primitive
for the 2048-bit / SHA-256 keys this program generates.  The message
byte length is bounded by the modulus size minus the padding overhead,
`256 - 2 * 32 - 2 = 190` bytes; longer messages make the primitive
throw.  `rawEnc` abstracts the actual ciphertext bytes of a successful
encryption. -/
def rsaOaepEncrypt (rawEnc : List Nat → List Nat) (msg : List Nat) :
    Except String (List Nat) :=
  if msg.length ≤ 256 - 2 * 32 - 2 then Except.ok (rawEnc msg)
  else Except.error "The operation failed for an operation-specific reason"

/-- `arrayBufferToBase64` from `crypto-utils.ts`: bytes to a base64
string (the byte values are below 256, so `btoa` cannot throw and the
encoding is total). -/
def arrayBufferToBase64 (buffer : List Nat) : List Nat := btoaBytes buffer

/-- `encryptRSA` from `crypto-utils.ts`: import the public key, UTF-8
encode the text, OAEP-encrypt, base64-encode; any thrown error is caught
and rethrown with the `RSA encryption failed:` prefix. -/
def encryptRSA (importPub : List Nat → Except String Unit)
    (rawEnc : List Nat → List Nat) (text publicKeyStr : List Nat) :
    Except String (List Nat) :=
  match importPub publicKeyStr with
  | Except.error e => Except.error ("RSA encryption failed: " ++ e)
  | Except.ok _ =>
      match rsaOaepEncrypt rawEnc (textEncode text) with
      | Except.error e => Except.error ("RSA encryption failed: " ++ e)
      | Except.ok encrypted => Except.ok (arrayBufferToBase64 encrypted)

/-- `decryptRSA` from `crypto-utils.ts`: import the private key, base64-
decode the ciphertext, raw OAEP-decrypt, decode the bytes with
`TextDecoder` (total, never throws); errors rethrown with the
`RSA decryption failed:` prefix. -/
def decryptRSA (importPriv : List Nat → Except String Unit)
    (rawDec : List Nat → Except String (List Nat))
    (textDecode : List Nat → List Nat) (ciphertext privateKeyStr : List Nat) :
    Except String (List Nat) :=
  match importPriv privateKeyStr with
  | Except.error e => Except.error ("RSA decryption failed: " ++ e)
  | Except.ok _ =>
      match atob ciphertext with
      | Except.error e => Except.error ("RSA decryption failed: " ++ e)
      | Except.ok encrypted =>
          match rawDec encrypted with
          | Except.error e => Except.error ("RSA decryption failed: " ++ e)
          | Except.ok decrypted => Except.ok (textDecode decrypted)

/-- `generateRSAKeyPair` from `crypto-utils.ts`: generate a 2048-bit
RSA-OAEP/SHA-256 keypair, export to SPKI and PKCS8 byte encodings
(abstracted as the parameters), and base64-encode each. -/
def generateRSAKeyPair (spki pkcs8 : List Nat) : List Nat × List Nat :=
  (arrayBufferToBase64 spki, arrayBufferToBase64 pkcs8)

theorem utf8Bytes_ascii (u : Nat) (hu : u < 128) : utf8Bytes u = [u] := by
  unfold utf8Bytes
  rw [if_pos hu]

theorem textEncode_cons_ascii (u : Nat) (rest : List Nat) (hu : u < 128) :
    textEncode (u :: rest) = u :: textEncode rest := by
  cases rest with
  | nil =>
      simp only [textEncode]
      rw [if_neg (by omega), utf8Bytes_ascii u hu]
  | cons v rest2 =>
      simp only [textEncode]
      rw [if_neg (by omega), if_neg (by omega), utf8Bytes_ascii u hu]
      rfl

theorem textEncode_ascii (text : List Nat) (h : ∀ c ∈ text, c < 128) :
    textEncode text = text := by
  induction text with
  | nil => rfl
  | cons u rest ih =>
      rw [textEncode_cons_ascii u rest (h u (by simp))]
      rw [ih (fun c hc => h c (by simp [hc]))]

/-- C9: against a validly importing 2048-bit SHA-256-OAEP public key,
`encryptRSA` fails on a 191-byte ASCII plaintext (it exceeds the
190-byte OAEP payload bound) and succeeds on a 190-byte one. -/
theorem rsa_oaep_payload_boundary (importPub : List Nat → Except String Unit)
    (rawEnc : List Nat → List Nat) (pub t191 t190 : List Nat)
    (hok : importPub pub = Except.ok ())
    (hlen191 : t191.length = 191) (hascii191 : ∀ c ∈ t191, c < 128)
    (hlen190 : t190.length = 190) (hascii190 : ∀ c ∈ t190, c < 128) :
    (∃ m, encryptRSA importPub rawEnc t191 pub = Except.error m) ∧
    ∃ ct, encryptRSA importPub rawEnc t190 pub = Except.ok ct := by
  constructor
  · refine ⟨"RSA encryption failed: " ++
      "The operation failed for an operation-specific reason", ?_⟩
    unfold encryptRSA
    rw [hok]
    unfold rsaOaepEncrypt
    rw [textEncode_ascii t191 hascii191, hlen191]
    rfl
  · refine ⟨arrayBufferToBase64 (rawEnc t190), ?_⟩
    unfold encryptRSA
    rw [hok]
    unfold rsaOaepEncrypt
    rw [textEncode_ascii t190 hascii190, hlen190]
    rfl

theorem replicateA_ascii (n : Nat) : ∀ c ∈ List.replicate n 65, c < 128 := by
  intro c hc
  rw [List.mem_replicate] at hc
  omega

/-- C9 witness with trivially importing key oracles and the all-`A`
plaintexts of lengths 191 and 190. -/
theorem rsa_oaep_payload_boundary_witness :
    ((fun (_ : List Nat) => Except.ok (ε := String) ()) [] = Except.ok () ∧
      (List.replicate 191 65).length = 191 ∧
      (∀ c ∈ List.replicate 191 65, c < 128) ∧
      (List.replicate 190 65).length = 190 ∧
      (∀ c ∈ List.replicate 190 65, c < 128)) ∧
    (∃ m, encryptRSA (fun _ => Except.ok ()) id (List.replicate 191 65) [] =
      Except.error m) ∧
    ∃ ct, encryptRSA (fun _ => Except.ok ()) id (List.replicate 190 65) [] =
      Except.ok ct :=
  ⟨⟨rfl, List.length_replicate .., replicateA_ascii 191,
      List.length_replicate .., replicateA_ascii 190⟩,
    rsa_oaep_payload_boundary (fun _ => Except.ok ()) id []
      (List.replicate 191 65) (List.replicate 190 65) rfl
      (List.length_replicate ..) (replicateA_ascii 191)
      (List.length_replicate ..) (replicateA_ascii 190)⟩

/-! ## Vigenere cipher adapter

`encryptVigenere` / `decryptVigenere` are imported and dispatched by
`App.tsx` but their implementation is not part of the `crypto-utils.ts`
snapshot under `src`; the adapter below is modelled from the spec
(section 4.6). -/

/-- Alphabetic test (`A`-`Z` or `a`-`z`) on a code unit. -/
def isAlphaCode (c : Nat) : Bool :=
  decide ((65 ≤ c ∧ c ≤ 90) ∨ (97 ≤ c ∧ c ≤ 122))

/-- Shift value of a keyword letter: its alphabetic position `A=0..Z=25`,
case-insensitive (only applied to alphabetic code units). -/
def letterShift (c : Nat) : Nat := if c ≤ 90 then c - 65 else c - 97

/-- Rotate an alphabetic code unit forward by `s` positions within its
own case alphabet, preserving case. -/
def rotAlpha (c s : Nat) : Nat :=
  if c ≤ 90 then (c - 65 + s) % 26 + 65 else (c - 97 + s) % 26 + 97

/-- Modelled from the spec: the keyword letters actually used for
cycling (the alphabetic characters of the keyword). -/
def keyLetters (key : List Nat) : List Nat := key.filter isAlphaCode

/-- Modelled from the spec: the Vigenere walk over the plaintext.  `j`
counts the keyword letters consumed so far; an alphabetic plaintext unit
is transformed with the shift of keyword letter `j % ks.length` and
advances `j`; every other unit passes through without consuming a
keyword position. -/
def vigLoop (op : Nat → Nat → Nat) (ks : List Nat) : Nat → List Nat → List Nat
  | _, [] => []
  | j, c :: rest =>
      if isAlphaCode c then
        op c (letterShift (ks.getD (j % ks.length) 65)) :: vigLoop op ks (j + 1) rest
      else c :: vigLoop op ks j rest

/-- Modelled from the spec: `encryptVigenere` shifts each alphabetic
plaintext unit forward by the shift of the current keyword letter,
cycling the keyword only across alphabetic positions, and fails with an
empty-key error when the keyword has no alphabetic character. -/
def encryptVigenere (text key : List Nat) : Except String (List Nat) :=
  if keyLetters key = [] then Except.error "Key cannot be empty"
  else Except.ok (vigLoop rotAlpha (keyLetters key) 0 text)

/-- Modelled from the spec: `decryptVigenere` applies the inverse
(backward) shift with the same keyword-cycling discipline. -/
def decryptVigenere (text key : List Nat) : Except String (List Nat) :=
  if keyLetters key = [] then Except.error "Key cannot be empty"
  else Except.ok (vigLoop (fun c s => rotAlpha c (26 - s)) (keyLetters key) 0 text)

theorem isAlphaCode_rotAlpha (c s : Nat) (h : isAlphaCode c = true) :
    isAlphaCode (rotAlpha c s) = true := by
  simp only [isAlphaCode, decide_eq_true_eq] at h ⊢
  unfold rotAlpha
  split <;> omega

theorem vigLoop_filter_not_alpha (op : Nat → Nat → Nat)
    (hop : ∀ c s, isAlphaCode c = true → isAlphaCode (op c s) = true)
    (ks text : List Nat) :
    ∀ j, (vigLoop op ks j text).filter (fun c => !(isAlphaCode c)) =
      text.filter (fun c => !(isAlphaCode c)) := by
  induction text with
  | nil => intro j; rfl
  | cons c rest ih =>
      intro j
      cases hc : isAlphaCode c with
      | true =>
          simp [vigLoop, hc, List.filter_cons, hop c _ hc, ih (j + 1)]
      | false =>
          simp [vigLoop, hc, List.filter_cons, ih j]

theorem vigLoop_filter_alpha (op : Nat → Nat → Nat)
    (hop : ∀ c s, isAlphaCode c = true → isAlphaCode (op c s) = true)
    (ks text : List Nat) :
    ∀ j, (vigLoop op ks j text).filter isAlphaCode =
      vigLoop op ks j (text.filter isAlphaCode) := by
  induction text with
  | nil => intro j; rfl
  | cons c rest ih =>
      intro j
      cases hc : isAlphaCode c with
      | true =>
          simp [vigLoop, hc, List.filter_cons, hop c _ hc, ih (j + 1)]
      | false =>
          simp [vigLoop, hc, List.filter_cons, ih j]

/-- C7 (spec-modelled): Vigenere encryption transforms each alphabetic
unit with the shift of the current keyword letter (that is the
definition of `vigLoop`), and the keyword position advances only at
alphabetic plaintext positions: the non-alphabetic units pass through
unchanged (first filter identity) and dropping them before or after
encryption yields the same letters (second filter identity). -/
theorem vigenere_keyword_advances_only_on_alpha (text key : List Nat)
    (h : keyLetters key ≠ []) :
    encryptVigenere text key =
      Except.ok (vigLoop rotAlpha (keyLetters key) 0 text) ∧
    (vigLoop rotAlpha (keyLetters key) 0 text).filter
        (fun c => !(isAlphaCode c)) =
      text.filter (fun c => !(isAlphaCode c)) ∧
    (vigLoop rotAlpha (keyLetters key) 0 text).filter isAlphaCode =
      vigLoop rotAlpha (keyLetters key) 0 (text.filter isAlphaCode) := by
  refine ⟨?_, ?_, ?_⟩
  · unfold encryptVigenere
    rw [if_neg h]
  · exact vigLoop_filter_not_alpha rotAlpha isAlphaCode_rotAlpha _ text 0
  · exact vigLoop_filter_alpha rotAlpha isAlphaCode_rotAlpha _ text 0

/-- C7 witness at the concrete scenario of the spec: `"AB CD"` with
keyword `"KEY"` encrypts to `"KF AN"`, the space passing through and the
four letters consuming keyword letters K, E, Y, K. -/
theorem vigenere_keyword_advances_only_on_alpha_witness :
    (keyLetters [75, 69, 89] ≠ [] ∧
      vigLoop rotAlpha (keyLetters [75, 69, 89]) 0 [65, 66, 32, 67, 68] =
        [75, 70, 32, 65, 78]) ∧
    encryptVigenere [65, 66, 32, 67, 68] [75, 69, 89] =
      Except.ok (vigLoop rotAlpha (keyLetters [75, 69, 89]) 0 [65, 66, 32, 67, 68]) ∧
    (vigLoop rotAlpha (keyLetters [75, 69, 89]) 0 [65, 66, 32, 67, 68]).filter
        (fun c => !(isAlphaCode c)) =
      [65, 66, 32, 67, 68].filter (fun c => !(isAlphaCode c)) ∧
    (vigLoop rotAlpha (keyLetters [75, 69, 89]) 0 [65, 66, 32, 67, 68]).filter
        isAlphaCode =
      vigLoop rotAlpha (keyLetters [75, 69, 89]) 0
        ([65, 66, 32, 67, 68].filter isAlphaCode) :=
  ⟨⟨by decide, by decide⟩,
    vigenere_keyword_advances_only_on_alpha [65, 66, 32, 67, 68] [75, 69, 89]
      (by decide)⟩

/-! ## TripleDES adapter

`encrypt3DES` / `decrypt3DES` are imported and dispatched by `App.tsx`
but absent from the `crypto-utils.ts` snapshot under `src`; per the
spec they are structurally identical to the AES wrappers, differing only
in the underlying block cipher primitive. -/

/-- Modelled from the spec: `encrypt3DES`, the 3DES primitive call
behind the same wrapper shape as `encryptAES`. -/
def encrypt3DES (desEnc : List Nat → List Nat → List Nat)
    (text key : List Nat) : List Nat :=
  desEnc text key

/-- Modelled from the spec: `decrypt3DES`, the same wrapper logic as
`decryptAES` over the 3DES primitive. -/
def decrypt3DES (desDec : List Nat → List Nat → Except String (List Nat))
    (utf8 : List Nat → Except String (List Nat))
    (ciphertext key : List Nat) : Except String (List Nat) :=
  match desDec ciphertext key with
  | Except.error e => Except.error ("3DES decryption failed: " ++ e)
  | Except.ok bytes =>
      match utf8 bytes with
      | Except.error e => Except.error ("3DES decryption failed: " ++ e)
      | Except.ok decrypted =>
          if decrypted.isEmpty then
            Except.error "3DES decryption failed: Invalid key or corrupted data"
          else Except.ok decrypted

/-! ## Key generators -/

/-- One hex digit code unit (`0`-`9`, `a`-`f`), as produced by
`byte.toString(16)`. -/
def hexDigit (n : Nat) : Nat := if n < 10 then 48 + n else 87 + n

/-- Two hex digit code units of a byte, as produced by
`byte.toString(16).padStart(2, "0")`. -/
def hexByte (b : Nat) : List Nat := [hexDigit (b / 16), hexDigit (b % 16)]

/-- `generateAESKey` from `crypto-utils.ts`: 32 secure random bytes,
hex-encoded. -/
def generateAESKey (bytes : List Nat) : List Nat := (bytes.map hexByte).flatten

/-- Modelled from the spec: `generate3DESKey`, a 192-bit (24 byte) key,
hex-encoded like the AES one. -/
def generate3DESKey (bytes : List Nat) : List Nat := (bytes.map hexByte).flatten

/-- Code units of the alphanumeric alphabet of `generateXORKey`. -/
def xorKeyChars : List Nat :=
  (List.range 26).map (65 + ·) ++ (List.range 26).map (97 + ·) ++
    (List.range 10).map (48 + ·)

/-- `generateXORKey` from `crypto-utils.ts`: each secure random byte
selects the alphanumeric character at position `byte % 62`. -/
def generateXORKey (bytes : List Nat) : List Nat :=
  bytes.map (fun b => xorKeyChars.getD (b % xorKeyChars.length) 0)

/-- Modelled from the spec: `generateVigenereKey`, a random
uppercase-alphabetic string. -/
def generateVigenereKey (bytes : List Nat) : List Nat :=
  bytes.map (fun b => 65 + b % 26)

/-! ## Algorithm registry and dispatch

Modelled from the spec and from the dispatch in `App.tsx`: the
`Algorithm` union tag in the `crypto-utils.ts` snapshot under `src`
lists four tags, but `App.tsx` (also under `src`) imports and
dispatches on the six-variant set the spec enumerates, including the
3DES and Vigenere adapters missing from that snapshot. -/

/-- The closed algorithm union (`3DES` is spelled `TripleDES`). -/
inductive Algorithm
  | AES
  | TripleDES
  | RSA
  | XOR
  | Caesar
  | Vigenere
  deriving DecidableEq

/-- The registry: the variants in the order `App.tsx` offers them. -/
def Algorithm.all : List Algorithm :=
  [.AES, .TripleDES, .RSA, .XOR, .Caesar, .Vigenere]

/-- The key shape each algorithm requires: a passphrase or keyword text,
an integer shift for Caesar, or a public/private keypair for RSA. -/
def Algorithm.KeyType : Algorithm → Type
  | .AES => List Nat
  | .TripleDES => List Nat
  | .RSA => List Nat × List Nat
  | .XOR => List Nat
  | .Caesar => Int
  | .Vigenere => List Nat

/-- The external primitives the adapters delegate to, bundled. -/
structure Primitives where
  aesEnc : List Nat → List Nat → List Nat
  aesDec : List Nat → List Nat → Except String (List Nat)
  desEnc : List Nat → List Nat → List Nat
  desDec : List Nat → List Nat → Except String (List Nat)
  utf8 : List Nat → Except String (List Nat)
  importPub : List Nat → Except String Unit
  importPriv : List Nat → Except String Unit
  rsaRawEnc : List Nat → List Nat
  rsaRawDec : List Nat → Except String (List Nat)
  textDecode : List Nat → List Nat
  randBytes : Nat → List Nat
  spki : List Nat
  pkcs8 : List Nat

/-- The encrypt dispatch of `handleEncrypt` in `App.tsx`: each variant
routes to exactly its adapter. -/
def coreEncrypt (p : Primitives) :
    (a : Algorithm) → List Nat → a.KeyType → Except String (List Nat)
  | .AES => fun t k => Except.ok (encryptAES p.aesEnc t k)
  | .TripleDES => fun t k => Except.ok (encrypt3DES p.desEnc t k)
  | .RSA => fun t kp => encryptRSA p.importPub p.rsaRawEnc t kp.1
  | .XOR => fun t k => encryptXOR t k
  | .Caesar => fun t s => Except.ok (encryptCaesar t s)
  | .Vigenere => fun t k => encryptVigenere t k

/-- The decrypt dispatch of `handleDecrypt` in `App.tsx`. -/
def coreDecrypt (p : Primitives) :
    (a : Algorithm) → List Nat → a.KeyType → Except String (List Nat)
  | .AES => fun t k => decryptAES p.aesDec p.utf8 t k
  | .TripleDES => fun t k => decrypt3DES p.desDec p.utf8 t k
  | .RSA => fun t kp => decryptRSA p.importPriv p.rsaRawDec p.textDecode t kp.2
  | .XOR => fun t k => decryptXOR t k
  | .Caesar => fun t s => Except.ok (decryptCaesar t s)
  | .Vigenere => fun t k => decryptVigenere t k

/-- The key generation dispatch of `handleGenerateKey` (and, for RSA,
`handleGenerateKeys`) in `App.tsx`. -/
def coreGenerateKey (p : Primitives) : (a : Algorithm) → a.KeyType
  | .AES => generateAESKey (p.randBytes 32)
  | .TripleDES => generate3DESKey (p.randBytes 24)
  | .RSA => generateRSAKeyPair p.spki p.pkcs8
  | .XOR => generateXORKey (p.randBytes 16)
  | .Caesar => Int.ofNat (generateCaesarShift ((p.randBytes 1).getD 0 0))
  | .Vigenere => generateVigenereKey (p.randBytes 8)

/-- C2 (spec-modelled): the registry is a closed enumeration of exactly
six distinct variants, every algorithm value is one of them, and for
each of the six the dispatch provides the encrypt, decrypt and key
generation operation of exactly its adapter. -/
theorem algorithm_registry_six_variants :
    Algorithm.all.length = 6 ∧ Algorithm.all.Nodup ∧
    (∀ a : Algorithm, a ∈ Algorithm.all) ∧
    ∀ (p : Primitives) (t k : List Nat) (kp : List Nat × List Nat) (s : Int),
      (coreEncrypt p Algorithm.AES t k = Except.ok (encryptAES p.aesEnc t k) ∧
        coreEncrypt p Algorithm.TripleDES t k =
          Except.ok (encrypt3DES p.desEnc t k) ∧
        coreEncrypt p Algorithm.RSA t kp =
          encryptRSA p.importPub p.rsaRawEnc t kp.1 ∧
        coreEncrypt p Algorithm.XOR t k = encryptXOR t k ∧
        coreEncrypt p Algorithm.Caesar t s = Except.ok (encryptCaesar t s) ∧
        coreEncrypt p Algorithm.Vigenere t k = encryptVigenere t k) ∧
      (coreDecrypt p Algorithm.AES t k = decryptAES p.aesDec p.utf8 t k ∧
        coreDecrypt p Algorithm.TripleDES t k =
          decrypt3DES p.desDec p.utf8 t k ∧
        coreDecrypt p Algorithm.RSA t kp =
          decryptRSA p.importPriv p.rsaRawDec p.textDecode t kp.2 ∧
        coreDecrypt p Algorithm.XOR t k = decryptXOR t k ∧
        coreDecrypt p Algorithm.Caesar t s = Except.ok (decryptCaesar t s) ∧
        coreDecrypt p Algorithm.Vigenere t k = decryptVigenere t k) ∧
      (coreGenerateKey p Algorithm.AES = generateAESKey (p.randBytes 32) ∧
        coreGenerateKey p Algorithm.TripleDES =
          generate3DESKey (p.randBytes 24) ∧
        coreGenerateKey p Algorithm.RSA = generateRSAKeyPair p.spki p.pkcs8 ∧
        coreGenerateKey p Algorithm.XOR = generateXORKey (p.randBytes 16) ∧
        coreGenerateKey p Algorithm.Caesar =
          Int.ofNat (generateCaesarShift ((p.randBytes 1).getD 0 0)) ∧
        coreGenerateKey p Algorithm.Vigenere =
          generateVigenereKey (p.randBytes 8)) := by
  refine ⟨rfl, by decide, fun a => by cases a <;> decide, ?_⟩
  intro p t k kp s
  exact ⟨⟨rfl, rfl, rfl, rfl, rfl, rfl⟩, ⟨rfl, rfl, rfl, rfl, rfl, rfl⟩,
    ⟨rfl, rfl, rfl, rfl, rfl, rfl⟩⟩
